import Mathlib

/-!
Verification of the operational scripts of the `largo-chat` repository.

The development shallowly embeds the orchestration logic of
`scripts/upgrade-milvus-to-cluster.sh` (environment checks, the interactive
confirmation gate, the backup job's Python, the restore job's Python, and the
surrounding kubectl/helm call sequence), the endpoint-wait loop of
`scripts/wait-for-milvus-endpoint.sh`, and the IAM create-or-get bootstrap
steps of the EKS access scripts.  All definitions are executable and follow
the source line by line; theorems about them are stated at the end of the
file.
-/

namespace Milvus

/-! ## String helpers mirroring the Python/bash primitives used by the scripts -/

/-- Split a character list at every occurrence of the separator `c`,
with the semantics of Python `str.split("/")` used by the restore job
(`obj["Key"].split("/")`): `"a//b"` gives `["a", "", "b"]`, `""` gives `[""]`. -/
def splitOnChar (c : Char) : List Char → List (List Char)
  | [] => [[]]
  | x :: xs =>
    if x = c then [] :: splitOnChar c xs
    else
      match splitOnChar c xs with
      | [] => [[x]]
      | p :: ps => (x :: p) :: ps

/-- Split a string on the slash character, as `key.split("/")` does. -/
def splitSlash (s : String) : List String :=
  (splitOnChar '/' s.data).map String.mk

/-- Python's substring test `needle in hay`. -/
def strContains (hay needle : String) : Bool :=
  (List.range (hay.data.length + 1)).any fun i => needle.data.isPrefixOf (hay.data.drop i)

/-- Python's `s.startswith(p)` / the S3 `Prefix=` filter applied to object keys. -/
def startsWithStr (s p : String) : Bool := p.data.isPrefixOf s.data

/-- Python's `s.endswith(suf)`, used as `path.endswith("/schema.json")`. -/
def endsWithStr (s suf : String) : Bool := suf.data.isSuffixOf s.data

/-- Truth value of the bash test `[[ "$ans" =~ ^[Yy]$ ]]` used by both
interactive prompts of the upgrade script: the regex is anchored on both
sides, so only the one-character answers `y` and `Y` match. -/
def matchesYy (ans : String) : Bool := ans = "y" || ans = "Y"

/-! ## Data model: collections, schemas, backup documents -/

/-- The pymilvus field data types that occur in the scripts.  The restore job
only recognizes the first five; the others stand for the remaining members of
the pymilvus enumeration (whose string forms match no entry of `dtype_map`). -/
inductive DataType where
  | INT64
  | FLOAT
  | FLOAT_VECTOR
  | BINARY_VECTOR
  | VARCHAR
  | DOUBLE
  | BOOL
  deriving DecidableEq, Repr

/-- `str(field.dtype)` as recorded by the backup job in `schema.json`. -/
def dtypeStr : DataType → String
  | .INT64 => "DataType.INT64"
  | .FLOAT => "DataType.FLOAT"
  | .FLOAT_VECTOR => "DataType.FLOAT_VECTOR"
  | .BINARY_VECTOR => "DataType.BINARY_VECTOR"
  | .VARCHAR => "DataType.VARCHAR"
  | .DOUBLE => "DataType.DOUBLE"
  | .BOOL => "DataType.BOOL"

/-- A live pymilvus `FieldSchema`: name, description, dtype, primary-key and
auto-id flags, and the optional `params` dictionary (numeric-valued, holding
for instance `dim` for vector fields). -/
structure FieldSchema where
  name : String
  description : String
  dtype : DataType
  is_primary : Bool
  auto_id : Bool
  params : Option (List (String × Nat))
  deriving DecidableEq, Repr

/-- A live pymilvus `CollectionSchema` (fields plus description). -/
structure CollectionSchema where
  description : String
  fields : List FieldSchema
  deriving DecidableEq, Repr

/-- One index record as serialized by the backup job into `indexes.json`. -/
structure IndexInfo where
  field_name : String
  index_type : String
  params : List (String × Nat)
  deriving DecidableEq, Repr

/-- A collection living in Milvus: its name, schema, and indexes. -/
structure Collection where
  name : String
  schema : CollectionSchema
  indexes : List IndexInfo
  deriving DecidableEq, Repr

/-- The ordered set of collections held by the Milvus deployment. -/
abbrev MilvusState := List Collection

/-- One field dictionary of a `schema.json` document: the backup job records
the dtype as the string `str(field.dtype)`. -/
structure BackupField where
  name : String
  description : String
  type : String
  is_primary : Bool
  auto_id : Bool
  params : Option (List (String × Nat))
  deriving DecidableEq, Repr

/-- A `schema.json` document (`schema_dict` in the backup job). -/
structure BackupSchema where
  name : String
  description : String
  fields : List BackupField
  deriving DecidableEq, Repr

/-- A document stored in the backup bucket: either a `schema.json` or an
`indexes.json`. -/
inductive S3Doc where
  | schemaDoc (s : BackupSchema)
  | indexDoc (l : List IndexInfo)
  deriving DecidableEq, Repr

/-- The backup bucket contents: object key paired with the stored document. -/
abbrev S3Store := List (String × S3Doc)

/-! ## The backup job (`create_backup`, upgrade script lines 105-230) -/

/-- `field_dict` as built by the backup job for one schema field. -/
def backupField (f : FieldSchema) : BackupField :=
  { name := f.name
    description := f.description
    type := dtypeStr f.dtype
    is_primary := f.is_primary
    auto_id := f.auto_id
    params := f.params }

/-- `schema_dict` as built by the backup job for one collection. -/
def backupSchemaDoc (c : Collection) : BackupSchema :=
  { name := c.name
    description := c.schema.description
    fields := c.schema.fields.map backupField }

/-- `MILVUS_BACKUP_PATH`, i.e. the object-key component `backup-$TIMESTAMP`. -/
def backupPath (ts : String) : String := "backup-" ++ ts

/-- The object key `backup-$TIMESTAMP/<collection>/schema.json`. -/
def schemaKey (ts nm : String) : String :=
  backupPath ts ++ "/" ++ nm ++ "/schema.json"

/-- The object key `backup-$TIMESTAMP/<collection>/indexes.json`. -/
def indexesKey (ts nm : String) : String :=
  backupPath ts ++ "/" ++ nm ++ "/indexes.json"

/-- The uploads performed by the backup job for one collection: always one
schema document, plus one index document exactly when the collection has at
least one index (`if indexes:`). -/
def backupCollection (ts : String) (c : Collection) : S3Store :=
  (schemaKey ts c.name, S3Doc.schemaDoc (backupSchemaDoc c)) ::
    (if c.indexes = [] then [] else [(indexesKey ts c.name, S3Doc.indexDoc c.indexes)])

/-- The whole backup job: iterate over `utility.list_collections()` and upload
each collection's documents under the timestamped object key. -/
def createBackup (ts : String) (cs : List Collection) : S3Store :=
  (cs.map (backupCollection ts)).flatten

/-! ## The restore job (`restore_data`, upgrade script lines 341-576) -/

/-- The hardcoded string-to-type lookup table of the restore job, in source
order.  (Python dictionaries iterate in insertion order.) -/
def dtype_map : List (String × DataType) :=
  [("DataType.INT64", DataType.INT64),
   ("DataType.FLOAT", DataType.FLOAT),
   ("DataType.FLOAT_VECTOR", DataType.FLOAT_VECTOR),
   ("DataType.BINARY_VECTOR", DataType.BINARY_VECTOR),
   ("DataType.VARCHAR", DataType.VARCHAR)]

/-- The `for dtype_str, dtype_enum in dtype_map.items(): if dtype_str in
field["type"]: ... break` loop: the first entry whose key is a *substring* of
the recorded type string wins; `none` corresponds to the loop's `else` branch
("Unknown data type", field skipped). -/
def lookupDtype (t : String) : Option DataType :=
  (dtype_map.find? fun p => strContains t p.1).map Prod.snd

/-- Numeric parameter lookup `field["params"].get("dim", 128)`. -/
def paramGet (ps : List (String × Nat)) (k : String) (d : Nat) : Nat :=
  match ps.find? fun q => q.1 = k with
  | some q => q.2
  | none => d

/-- Reconstruction of one `FieldSchema` by the restore job.  A field whose
type string matches no `dtype_map` entry is dropped (`none`); a vector-typed
field with a recorded `params` dictionary gets `dim` passed through (default
128); every other field gets no params. -/
def restoreField (f : BackupField) : Option FieldSchema :=
  match lookupDtype f.type with
  | none => none
  | some dt =>
    some
      { name := f.name
        description := f.description
        dtype := dt
        is_primary := f.is_primary
        auto_id := f.auto_id
        params :=
          if dt = DataType.FLOAT_VECTOR ∨ dt = DataType.BINARY_VECTOR then
            match f.params with
            | some ps => some [("dim", paramGet ps "dim" 128)]
            | none => none
          else none }

/-- `field_schemas`: the recognized fields, in order. -/
def restoreFields (fs : List BackupField) : List FieldSchema :=
  fs.filterMap restoreField

/-- `utility.has_collection(collection_name)`. -/
def has_collection (st : MilvusState) (nm : String) : Bool :=
  st.any fun c => c.name = nm

/-- `utility.drop_collection(collection_name)`. -/
def drop_collection (st : MilvusState) (nm : String) : MilvusState :=
  st.filter fun c => ¬ c.name = nm

/-- `Collection(name=..., schema=...)`: a freshly created collection has no
indexes. -/
def create_collection (st : MilvusState) (nm : String) (s : CollectionSchema) : MilvusState :=
  st ++ [{ name := nm, schema := s, indexes := [] }]

/-- `collection.create_index(...)` on the collection named `nm`. -/
def create_index (st : MilvusState) (nm : String) (idx : IndexInfo) : MilvusState :=
  st.map fun c => if c.name = nm then { c with indexes := c.indexes ++ [idx] } else c

/-- The drop-then-create sequence of the restore job: `if
utility.has_collection(name): utility.drop_collection(name)` followed by
`Collection(name=name, schema=schema)`. -/
def recreateCollection (st : MilvusState) (nm : String) (s : CollectionSchema) : MilvusState :=
  let st1 := if has_collection st nm then drop_collection st nm else st
  create_collection st1 nm s

/-- `s3.list_objects_v2(Bucket=..., Prefix=...)`: the keys of the bucket that
start with the requested prefix. -/
def listKeys (store : S3Store) (pfx : String) : List String :=
  (store.map Prod.fst).filter fun k => startsWithStr k pfx

/-- Append `key` to the entry of `nm` in `collection_paths`, creating the
entry if absent (the dictionary preserves first-seen order). -/
def addPath (acc : List (String × List String)) (nm key : String) :
    List (String × List String) :=
  match acc with
  | [] => [(nm, [key])]
  | (n, ks) :: rest =>
    if n = nm then (n, ks ++ [key]) :: rest
    else (n, ks) :: addPath rest nm key

/-- One step of building `collection_paths`: the key is split on `/`; keys
with at least three components are grouped under their second component
(`path_parts[1]`, the collection name), others are ignored. -/
def pathStep (acc : List (String × List String)) (k : String) :
    List (String × List String) :=
  let parts := splitSlash k
  if 3 ≤ parts.length then addPath acc (parts.getD 1 "") k else acc

/-- The `collection_paths` dictionary built from the listed keys. -/
def collectionPaths (keys : List String) : List (String × List String) :=
  keys.foldl pathStep []

/-- `s3.download_file` followed by `json.load`: fetches the document stored
under `key`, or raises (`Except.error`) when the key is absent. -/
def downloadDoc (store : S3Store) (key : String) : Except String S3Doc :=
  match store.find? fun e => e.1 = key with
  | some e => Except.ok e.2
  | none => Except.error ("NoSuchKey: " ++ key)

/-- Application of a downloaded schema document: rebuild the recognized
fields, form `CollectionSchema(fields=..., description=...)`, and run the
drop-and-create sequence under the path-derived collection name. -/
def applySchemaDoc (bs : BackupSchema) (nm : String) (st : MilvusState) : MilvusState :=
  recreateCollection st nm
    { description := bs.description, fields := restoreFields bs.fields }

/-- The index-restoration tail of the per-collection loop: find the paths
entry ending in `/indexes.json`, download it, and create every recorded index
on the just-created collection.  A download or parse failure is an exception
(`some message`). -/
def processIndexes (store : S3Store) (paths : List String) (nm : String)
    (st1 : MilvusState) : MilvusState × Option String :=
  match paths.find? fun p => endsWithStr p "/indexes.json" with
  | none => (st1, none)
  | some ik =>
    match downloadDoc store ik with
    | Except.error e => (st1, some e)
    | Except.ok (S3Doc.schemaDoc _) => (st1, some "TypeError: index document")
    | Except.ok (S3Doc.indexDoc idxs) =>
      (idxs.foldl (fun s i => create_index s nm i) st1, none)

/-- One iteration of the restore job's per-collection loop.  Returns the
Milvus state reached together with `some message` when an exception was raised
(to be caught by the enclosing catch-all handler); a missing schema file is a
plain `continue`, not an exception. -/
def processCollection (store : S3Store) (st : MilvusState) (nm : String)
    (paths : List String) : MilvusState × Option String :=
  match paths.find? fun p => endsWithStr p "/schema.json" with
  | none => (st, none)
  | some sk =>
    match downloadDoc store sk with
    | Except.error e => (st, some e)
    | Except.ok (S3Doc.indexDoc _) => (st, some "KeyError: fields")
    | Except.ok (S3Doc.schemaDoc bs) =>
      processIndexes store paths nm (applySchemaDoc bs nm st)

/-- The restore job's loop over `collection_paths.items()`.  An exception
raised for one collection propagates to the catch-all handler: the remaining
collections are not processed, but the state reached so far persists. -/
def runCollections (store : S3Store) :
    List (String × List String) → MilvusState → MilvusState × Option String
  | [], st => (st, none)
  | (n, ps) :: rest, st =>
    match processCollection store st n ps with
    | (st1, none) => runCollections store rest st1
    | (st1, some e) => (st1, some e)

/-- The body of the restore job's `try` block: list the bucket under
`MILVUS_BACKUP_PATH/`, group the keys by collection, and process each
collection.  An empty listing prints "No backup content found" and exits 0. -/
def restoreBody (store : S3Store) (path : String) (st : MilvusState) :
    MilvusState × Option String :=
  if (listKeys store (path ++ "/")).isEmpty then (st, none)
  else runCollections store (collectionPaths (listKeys store (path ++ "/"))) st

/-- The restore job's Python process: the exit status is nonzero only when the
connection retry loop exhausts; any exception raised by the restore body is
caught by the catch-all `except`, printed, and the process still exits 0. -/
def restoreJobRun (connectOk : Bool) (store : S3Store) (path : String)
    (st : MilvusState) : MilvusState × Nat :=
  if connectOk then ((restoreBody store path st).1, 0) else (st, 1)

/-- Backup followed by restore against an initial Milvus state `st`. -/
def roundTrip (ts : String) (cs : List Collection) (st : MilvusState) :
    MilvusState × Option String :=
  restoreBody (createBackup ts cs) (backupPath ts) st

/-! ## Environment and tool checks (upgrade script lines 11-60) -/

/-- The environment variables consulted by the upgrade script; the empty
string stands for an unset variable, as seen by the bash test `[ -z ... ]`. -/
structure Env where
  AWS_REGION : String
  EKS_CLUSTER_NAME : String
  EKS_NAMESPACE : String
  MILVUS_BUCKET_NAME : String
  MILVUS_BACKUP_BUCKET_NAME : String
  AWS_ACCESS_KEY_ID : String
  AWS_SECRET_ACCESS_KEY : String
  deriving DecidableEq, Repr

/-- Availability of the three CLI tools probed with `command -v`. -/
structure Tools where
  aws : Bool
  kubectl : Bool
  helm : Bool
  deriving DecidableEq, Repr

/-- The configuration in force once all checks at the top of the upgrade
script have passed. -/
structure Config where
  region : String
  clusterName : String
  nspace : String
  bucket : String
  backupBucket : String
  accessKeyId : String
  secretAccessKey : String
  deriving DecidableEq, Repr

/-- Lines 11-60 of the upgrade script, in order: default `AWS_REGION`, require
`EKS_CLUSTER_NAME`, default `EKS_NAMESPACE`, require `MILVUS_BUCKET_NAME`,
default `MILVUS_BACKUP_BUCKET_NAME`, require both AWS credentials, then
require the `aws`, `kubectl` and `helm` binaries.  Every failed requirement is
`exit 1`. -/
def envChecks (e : Env) (t : Tools) : Except Nat Config :=
  if e.EKS_CLUSTER_NAME = "" then Except.error 1
  else if e.MILVUS_BUCKET_NAME = "" then Except.error 1
  else if e.AWS_ACCESS_KEY_ID = "" ∨ e.AWS_SECRET_ACCESS_KEY = "" then Except.error 1
  else if ¬ t.aws then Except.error 1
  else if ¬ t.kubectl then Except.error 1
  else if ¬ t.helm then Except.error 1
  else
    Except.ok
      { region := if e.AWS_REGION = "" then "eu-central-1" else e.AWS_REGION
        clusterName := e.EKS_CLUSTER_NAME
        nspace := if e.EKS_NAMESPACE = "" then "milvus" else e.EKS_NAMESPACE
        bucket := e.MILVUS_BUCKET_NAME
        backupBucket :=
          if e.MILVUS_BACKUP_BUCKET_NAME = "" then e.MILVUS_BUCKET_NAME ++ "-backup"
          else e.MILVUS_BACKUP_BUCKET_NAME
        accessKeyId := e.AWS_ACCESS_KEY_ID
        secretAccessKey := e.AWS_SECRET_ACCESS_KEY }

/-! ## The upgrade script's external-call trace -/

/-- The external CLI invocations the upgrade script can make, in the order
they appear in the source.  Local file writes (job manifests,
`milvus-backup-info.env`) are not external calls. -/
inductive Call where
  | kubectlGetNodes
  | kubectlGetNodeSizes
  | kubectlGetStorageClasses
  | s3HeadBucket
  | s3MakeBucket
  | kubectlApplyBackupJob
  | kubectlWaitBackupJob
  | kubectlGetBackupJobStatus
  | kubectlLogsBackupJob
  | helmRepoUpdate
  | helmGetValues
  | helmUpgradeMilvus
  | kubectlGetPods
  | kubectlWaitPods
  | kubectlApplyRestoreJob
  | kubectlLogsRestoreJob
  | kubectlGetRestoreJobStatus
  | kubectlGetServices
  | kubectlGetPvc
  deriving DecidableEq, Repr

/-- Which calls mutate external state (create a bucket, submit a job, run the
helm upgrade); everything else only reads. -/
def isMutating : Call → Bool
  | Call.s3MakeBucket => true
  | Call.kubectlApplyBackupJob => true
  | Call.helmUpgradeMilvus => true
  | Call.kubectlApplyRestoreJob => true
  | _ => false

/-- Behaviour of the external systems during one run of the upgrade script. -/
structure World where
  backupBucketExists : Bool
  backupJobSucceeded : Bool
  continueAnyway : String
  restoreConnectOk : Bool
  store : S3Store
  milvus : MilvusState
  deriving Repr

/-- `check_cluster_resources`: four read-only kubectl invocations (node count,
node sizes, storage-class listing, storage-class grep). -/
def checkResourcesCalls : List Call :=
  [Call.kubectlGetNodes, Call.kubectlGetNodeSizes,
   Call.kubectlGetStorageClasses, Call.kubectlGetStorageClasses]

/-- Result of the `create_backup` stage. -/
structure BackupResult where
  calls : List Call
  aborted : Bool
  backupInfo : Option String
  deriving Repr

/-- `create_backup`: head-bucket, make-bucket when absent, submit the backup
job, wait for it, read its status.  On success the backup path is saved to
`milvus-backup-info.env`; on failure the job logs are shown and the operator
is asked whether to continue — any answer other than `y`/`Y` is `exit 1`. -/
def create_backup_step (ts : String) (w : World) : BackupResult :=
  let bucketCalls :=
    if w.backupBucketExists then [Call.s3HeadBucket]
    else [Call.s3HeadBucket, Call.s3MakeBucket]
  let jobCalls := [Call.kubectlApplyBackupJob, Call.kubectlWaitBackupJob,
                   Call.kubectlGetBackupJobStatus]
  if w.backupJobSucceeded then
    { calls := bucketCalls ++ jobCalls, aborted := false,
      backupInfo := some (backupPath ts) }
  else if matchesYy w.continueAnyway then
    { calls := bucketCalls ++ jobCalls ++ [Call.kubectlLogsBackupJob],
      aborted := false, backupInfo := none }
  else
    { calls := bucketCalls ++ jobCalls ++ [Call.kubectlLogsBackupJob],
      aborted := true, backupInfo := none }

/-- `upgrade_to_cluster`: helm repo update, helm get values, the `helm
upgrade` itself, then pod-status reads around a bounded non-fatal wait. -/
def upgrade_step : List Call :=
  [Call.helmRepoUpdate, Call.helmGetValues, Call.helmUpgradeMilvus,
   Call.kubectlGetPods, Call.kubectlWaitPods, Call.kubectlGetPods]

/-- Result of the `restore_data` stage. -/
structure RestoreResult where
  calls : List Call
  message : String
  milvusAfter : MilvusState
  deriving Repr

/-- `restore_data`: when `milvus-backup-info.env` is absent the stage returns
immediately without submitting anything; otherwise the restore job is
submitted, its logs followed, and its status field decides between the
success and the warning message. -/
def restore_data_step (w : World) (backupInfo : Option String) : RestoreResult :=
  match backupInfo with
  | none =>
    { calls := [], message := "No backup information found. Skipping restoration.",
      milvusAfter := w.milvus }
  | some path =>
    let r := restoreJobRun w.restoreConnectOk w.store path w.milvus
    { calls := [Call.kubectlApplyRestoreJob, Call.kubectlLogsRestoreJob,
                Call.kubectlGetRestoreJobStatus]
      message :=
        if r.2 = 0 then "Restoration completed successfully"
        else "Restoration may not have completed successfully. Check job logs for details."
      milvusAfter := r.1 }

/-- `verify_deployment`: four read-only kubectl invocations. -/
def verify_step : List Call :=
  [Call.kubectlGetPods, Call.kubectlGetServices, Call.kubectlGetPvc,
   Call.kubectlGetServices]

/-- Outcome of one run of the upgrade script. -/
structure ScriptRun where
  exitCode : Nat
  calls : List Call
  restoreMessage : Option String
  deriving Repr

/-- The main flow of the upgrade script: environment and tool checks,
`check_cluster_resources`, the interactive confirmation gate (`read -r
proceed`; any answer not matching `^[Yy]$` is `exit 0`), then the
backup / upgrade / restore / verify pipeline. -/
def runScript (e : Env) (t : Tools) (w : World) (ts : String) (proceed : String) :
    ScriptRun :=
  match envChecks e t with
  | Except.error c => { exitCode := c, calls := [], restoreMessage := none }
  | Except.ok _ =>
    if matchesYy proceed then
      let b := create_backup_step ts w
      if b.aborted then
        { exitCode := 1, calls := checkResourcesCalls ++ b.calls, restoreMessage := none }
      else
        let r := restore_data_step w b.backupInfo
        { exitCode := 0
          calls := checkResourcesCalls ++ b.calls ++ upgrade_step ++ r.calls ++ verify_step
          restoreMessage := some r.message }
    else
      { exitCode := 0, calls := checkResourcesCalls, restoreMessage := none }

/-! ## The endpoint-wait loop (`wait-for-milvus-endpoint.sh`, `wait_for_lb`) -/

/-- The polling loop of `wait_for_lb`: while fewer than `MAX_WAIT=600` seconds
have elapsed, read the LoadBalancer hostname; a non-empty value different from
`<pending>` is success, otherwise sleep 15 seconds and retry.  `probe t` is
the hostname the `kubectl get svc` read returns at elapsed time `t`. -/
def waitLoop (probe : Nat → String) (elapsed : Nat) : Bool × Nat :=
  if h : elapsed < 600 then
    let ip := probe elapsed
    if ip ≠ "" ∧ ip ≠ "<pending>" then (true, elapsed)
    else waitLoop probe (elapsed + 15)
  else (false, elapsed)
  termination_by 600 - elapsed
  decreasing_by omega

/-- `wait_for_lb`: run the loop from elapsed time 0; returns the function's
return status (0 on success, 1 on the timeout message) and the elapsed time
at exit. -/
def wait_for_lb (probe : Nat → String) : Nat × Nat :=
  let r := waitLoop probe 0
  (if r.1 then 0 else 1, r.2)

/-! ## IAM access bootstrap (create-or-get semantics) -/

/-- Account-wide IAM state touched by the bootstrap scripts: customer managed
policy names, role names, and role-policy attachments. -/
structure IAMState where
  policies : List String
  roles : List String
  attachments : List (String × String)
  deriving DecidableEq, Repr

/-- The ARN under which a managed policy is created and later listed. -/
def policyArn (account nm : String) : String :=
  "arn:aws:iam::" ++ account ++ ":policy/" ++ nm

/-- The ARN under which a role is created and later described. -/
def roleArn (account nm : String) : String :=
  "arn:aws:iam::" ++ account ++ ":role/" ++ nm

/-- `aws iam create-policy ... || aws iam list-policies --query ...`: when the
policy already exists the create call fails and the fallback lookup resolves
the same ARN; otherwise the policy is created. -/
def createOrGetPolicy (st : IAMState) (account nm : String) : IAMState × String :=
  if nm ∈ st.policies then (st, policyArn account nm)
  else ({ st with policies := st.policies ++ [nm] }, policyArn account nm)

/-- `aws iam create-role ... || aws iam get-role ...`. -/
def createOrGetRole (st : IAMState) (account nm : String) : IAMState × String :=
  if nm ∈ st.roles then (st, roleArn account nm)
  else ({ st with roles := st.roles ++ [nm] }, roleArn account nm)

/-- `aws iam attach-role-policy`: attaching an already-attached managed policy
is a no-op success. -/
def attachRolePolicy (st : IAMState) (role arn : String) : IAMState :=
  if (role, arn) ∈ st.attachments then st
  else { st with attachments := st.attachments ++ [(role, arn)] }

/-- The EksAdminPolicy / eks-admin-role bootstrap (create-or-get for both,
then attach). -/
def eksAdminBootstrap (st : IAMState) (account : String) : IAMState × String × String :=
  (attachRolePolicy
     (createOrGetRole (createOrGetPolicy st account "EksAdminPolicy").1
        account "eks-admin-role").1
     "eks-admin-role" (createOrGetPolicy st account "EksAdminPolicy").2,
   (createOrGetPolicy st account "EksAdminPolicy").2,
   (createOrGetRole (createOrGetPolicy st account "EksAdminPolicy").1
      account "eks-admin-role").2)

/-- The check-then-create step for `AWSLoadBalancerControllerIAMPolicy`
(`aws iam get-policy` first, `aws iam create-policy` only when absent). -/
def lbPolicyStep (st : IAMState) (account : String) : IAMState × String :=
  if "AWSLoadBalancerControllerIAMPolicy" ∈ st.policies then
    (st, policyArn account "AWSLoadBalancerControllerIAMPolicy")
  else
    ({ st with policies := st.policies ++ ["AWSLoadBalancerControllerIAMPolicy"] },
     policyArn account "AWSLoadBalancerControllerIAMPolicy")

/-- The AWSLoadBalancerControllerIAMPolicy / AmazonEKSLoadBalancerControllerRole
bootstrap of `setup-eks-access.sh`: check-then-create for the policy, and for
the role (the attach only runs in the role's create branch). -/
def lbControllerBootstrap (st : IAMState) (account : String) : IAMState × String × String :=
  if "AmazonEKSLoadBalancerControllerRole" ∈ (lbPolicyStep st account).1.roles then
    ((lbPolicyStep st account).1, (lbPolicyStep st account).2,
     roleArn account "AmazonEKSLoadBalancerControllerRole")
  else
    (attachRolePolicy
       { (lbPolicyStep st account).1 with
         roles := (lbPolicyStep st account).1.roles
                    ++ ["AmazonEKSLoadBalancerControllerRole"] }
       "AmazonEKSLoadBalancerControllerRole" (lbPolicyStep st account).2,
     (lbPolicyStep st account).2,
     roleArn account "AmazonEKSLoadBalancerControllerRole")

/-! ## Similarity of stores that differ only in fields the restore drops -/

/-- Two stored documents that the restore job cannot tell apart: schema
documents with the same description whose field lists restore identically,
and otherwise equal documents. -/
def docSim : S3Doc → S3Doc → Prop
  | S3Doc.schemaDoc a, S3Doc.schemaDoc b =>
    a.description = b.description ∧ restoreFields a.fields = restoreFields b.fields
  | a, b => a = b

/-- Download results that the restore job cannot tell apart. -/
def dlSim : Except String S3Doc → Except String S3Doc → Prop
  | Except.ok a, Except.ok b => docSim a b
  | Except.error e1, Except.error e2 => e1 = e2
  | _, _ => False

/-! ## Concrete inputs used by the theorems below -/

/-- The `id` field of the spec's concrete round-trip case: INT64, primary. -/
def idField : FieldSchema :=
  { name := "id", description := "", dtype := DataType.INT64,
    is_primary := true, auto_id := false, params := none }

/-- The `vec` field of the spec's concrete round-trip case: FLOAT_VECTOR with
`dim` 128. -/
def vecField : FieldSchema :=
  { name := "vec", description := "", dtype := DataType.FLOAT_VECTOR,
    is_primary := false, auto_id := false, params := some [("dim", 128)] }

/-- The `docs` collection of the spec's concrete round-trip case. -/
def docsCollection : Collection :=
  { name := "docs", schema := { description := "", fields := [idField, vecField] },
    indexes := [] }

/-- A probe whose answer is forever `<pending>`. -/
def pendingProbe : Nat → String := fun _ => "<pending>"

/-- A witness state for C3: `docs` exists with an INT64-only schema before the
restore recreates it with a different schema. -/
def oldDocs : Collection :=
  { name := "docs", schema := { description := "old", fields := [idField] },
    indexes := [] }

/-- The schema the restore stage recreates `docs` with in the C3 witness. -/
def newDocsSchema : CollectionSchema :=
  { description := "", fields := [idField] }

/-- A fully populated environment for use by witnesses. -/
def goodEnv : Env :=
  { AWS_REGION := "", EKS_CLUSTER_NAME := "milvus-cluster", EKS_NAMESPACE := "",
    MILVUS_BUCKET_NAME := "largo-milvus", MILVUS_BACKUP_BUCKET_NAME := "",
    AWS_ACCESS_KEY_ID := "AKIA123", AWS_SECRET_ACCESS_KEY := "secret" }

/-- All three CLI tools installed. -/
def goodTools : Tools := { aws := true, kubectl := true, helm := true }

/-- A world in which backup and restore succeed. -/
def happyWorld : World :=
  { backupBucketExists := false, backupJobSucceeded := true, continueAnyway := "",
    restoreConnectOk := true, store := [], milvus := [] }

/-- A world whose backup job fails and whose operator answers `y`. -/
def failContinueWorld : World :=
  { backupBucketExists := true, backupJobSucceeded := false, continueAnyway := "y",
    restoreConnectOk := true, store := [], milvus := [] }

/-- A world whose backup job fails and whose operator answers `n`. -/
def failAbortWorld : World :=
  { backupBucketExists := true, backupJobSucceeded := false, continueAnyway := "n",
    restoreConnectOk := true, store := [], milvus := [] }

/-- An environment missing the required `EKS_CLUSTER_NAME`. -/
def badEnv : Env := { goodEnv with EKS_CLUSTER_NAME := "" }

/-- A backup bucket whose only object makes the restore body raise (the
document under `schema.json` has no `fields` key). -/
def badStore : S3Store := [("backup-1/docs/schema.json", S3Doc.indexDoc [])]

/-- The world of the C10 witness: connection succeeds, every collection fails
to restore. -/
def errWorld : World :=
  { backupBucketExists := true, backupJobSucceeded := true, continueAnyway := "",
    restoreConnectOk := true, store := badStore, milvus := [] }

/-- An index on the `vec` field, as the backup job records it. -/
def vecIndexInfo : IndexInfo :=
  { field_name := "vec", index_type := "IVF_FLAT", params := [("nlist", 1024)] }

/-- A second collection, carrying one index, for the layout witness. -/
def chunksCollection : Collection :=
  { name := "chunks", schema := { description := "", fields := [idField, vecField] },
    indexes := [vecIndexInfo] }

/-- A recorded field whose type string (`DataType.BOOL`) matches no entry of
the restore job's lookup table. -/
def unknownField : BackupField :=
  { name := "flag", description := "", type := "DataType.BOOL",
    is_primary := false, auto_id := false, params := none }

/-- The backup record of `idField`. -/
def idBackupField : BackupField := backupField idField

/-! ## Theorems -/

/-- **C1.** Backup/restore round-trip on the spec's concrete case.  The claim
expects `docs` to come back with `id` as INT64 and `vec` as FLOAT_VECTOR of
dimension 128.  The code does not deliver this: the restore job's type
reconstruction tests `dtype_str in field["type"]` — a *substring* test taken
in `dtype_map` insertion order — so the entry `"DataType.FLOAT"` captures the
recorded string `"DataType.FLOAT_VECTOR"` before the `"DataType.FLOAT_VECTOR"`
entry is ever reached.  `vec` is therefore restored as a scalar FLOAT field
and its `dim` parameter is dropped, refuting the claimed identity of field
lists.  The theorem evaluates the embedded code at the failing input. -/
theorem backup_restore_roundtrip_on_docs :
    lookupDtype "DataType.FLOAT_VECTOR" = some DataType.FLOAT ∧
    roundTrip "20250101000000" [docsCollection] [] =
      ([{ name := "docs"
          schema :=
            { description := ""
              fields :=
                [{ name := "id", description := "", dtype := DataType.INT64,
                   is_primary := true, auto_id := false, params := none },
                 { name := "vec", description := "", dtype := DataType.FLOAT,
                   is_primary := false, auto_id := false, params := none }] }
          indexes := [] }], none) := by
  decide

/-- If the probe never reports a usable hostname, the wait loop runs to the
600-second bound and stops there, whatever multiple-of-15 elapsed time it is
started from. -/
theorem waitLoop_timeout (probe : Nat → String)
    (h : ∀ t, probe t = "" ∨ probe t = "<pending>") :
    ∀ k elapsed, elapsed + 15 * k = 600 → waitLoop probe elapsed = (false, 600) := by
  intro k
  induction k with
  | zero =>
    intro elapsed he
    rw [waitLoop]
    simp only [Nat.mul_zero, Nat.add_zero] at he
    simp [he]
  | succ n ih =>
    intro elapsed he
    have hlt : elapsed < 600 := by omega
    rw [waitLoop]
    rw [dif_pos hlt]
    have hcond : ¬ (probe elapsed ≠ "" ∧ probe elapsed ≠ "<pending>") := by
      rcases h elapsed with h1 | h1
      · exact fun hc => hc.1 h1
      · exact fun hc => hc.2 h1
    rw [if_neg hcond]
    exact ih (elapsed + 15) (by omega)

/-- **C6.** Bounded polling: in an environment where the LoadBalancer endpoint
never becomes available (`kubectl` forever returns an empty hostname or
`<pending>`), `wait_for_lb` terminates after its configured maximum wait of
600 seconds (polling every 15 seconds), reporting the timeout by returning
failure status 1 with 600 seconds elapsed. -/
theorem wait_for_lb_times_out (probe : Nat → String)
    (h : ∀ t, probe t = "" ∨ probe t = "<pending>") :
    wait_for_lb probe = (1, 600) := by
  unfold wait_for_lb
  rw [waitLoop_timeout probe h 40 0 (by omega)]
  simp

/-- Witness for C6: the timeout theorem applied to the always-pending probe. -/
theorem wait_for_lb_times_out_witness : wait_for_lb pendingProbe = (1, 600) :=
  wait_for_lb_times_out pendingProbe (fun _ => Or.inr rfl)

theorem createOrGetPolicy_arn (st : IAMState) (a n : String) :
    (createOrGetPolicy st a n).2 = policyArn a n := by
  unfold createOrGetPolicy; split <;> rfl

theorem createOrGetPolicy_mem (st : IAMState) (a n : String) :
    n ∈ (createOrGetPolicy st a n).1.policies := by
  unfold createOrGetPolicy; split <;> simp_all

theorem createOrGetPolicy_roles (st : IAMState) (a n : String) :
    (createOrGetPolicy st a n).1.roles = st.roles := by
  unfold createOrGetPolicy; split <;> rfl

theorem createOrGetPolicy_attachments (st : IAMState) (a n : String) :
    (createOrGetPolicy st a n).1.attachments = st.attachments := by
  unfold createOrGetPolicy; split <;> rfl

theorem createOrGetPolicy_of_mem (st : IAMState) (a n : String)
    (h : n ∈ st.policies) : createOrGetPolicy st a n = (st, policyArn a n) := by
  unfold createOrGetPolicy; simp [h]

theorem createOrGetRole_arn (st : IAMState) (a n : String) :
    (createOrGetRole st a n).2 = roleArn a n := by
  unfold createOrGetRole; split <;> rfl

theorem createOrGetRole_mem (st : IAMState) (a n : String) :
    n ∈ (createOrGetRole st a n).1.roles := by
  unfold createOrGetRole; split <;> simp_all

theorem createOrGetRole_policies (st : IAMState) (a n : String) :
    (createOrGetRole st a n).1.policies = st.policies := by
  unfold createOrGetRole; split <;> rfl

theorem createOrGetRole_attachments (st : IAMState) (a n : String) :
    (createOrGetRole st a n).1.attachments = st.attachments := by
  unfold createOrGetRole; split <;> rfl

theorem createOrGetRole_of_mem (st : IAMState) (a n : String)
    (h : n ∈ st.roles) : createOrGetRole st a n = (st, roleArn a n) := by
  unfold createOrGetRole; simp [h]

theorem attachRolePolicy_mem (st : IAMState) (r p : String) :
    (r, p) ∈ (attachRolePolicy st r p).attachments := by
  unfold attachRolePolicy; split <;> simp_all

theorem attachRolePolicy_policies (st : IAMState) (r p : String) :
    (attachRolePolicy st r p).policies = st.policies := by
  unfold attachRolePolicy; split <;> rfl

theorem attachRolePolicy_roles (st : IAMState) (r p : String) :
    (attachRolePolicy st r p).roles = st.roles := by
  unfold attachRolePolicy; split <;> rfl

theorem attachRolePolicy_of_mem (st : IAMState) (r p : String)
    (h : (r, p) ∈ st.attachments) : attachRolePolicy st r p = st := by
  unfold attachRolePolicy; simp [h]

theorem lbPolicyStep_arn (st : IAMState) (a : String) :
    (lbPolicyStep st a).2 = policyArn a "AWSLoadBalancerControllerIAMPolicy" := by
  unfold lbPolicyStep; split <;> rfl

theorem lbPolicyStep_mem (st : IAMState) (a : String) :
    "AWSLoadBalancerControllerIAMPolicy" ∈ (lbPolicyStep st a).1.policies := by
  unfold lbPolicyStep; split <;> simp_all

theorem lbPolicyStep_roles (st : IAMState) (a : String) :
    (lbPolicyStep st a).1.roles = st.roles := by
  unfold lbPolicyStep; split <;> rfl

theorem lbPolicyStep_attachments (st : IAMState) (a : String) :
    (lbPolicyStep st a).1.attachments = st.attachments := by
  unfold lbPolicyStep; split <;> rfl

theorem lbPolicyStep_of_mem (st : IAMState) (a : String)
    (h : "AWSLoadBalancerControllerIAMPolicy" ∈ st.policies) :
    lbPolicyStep st a = (st, policyArn a "AWSLoadBalancerControllerIAMPolicy") := by
  unfold lbPolicyStep; simp [h]

theorem eksAdminBootstrap_idem (st : IAMState) (account : String) :
    eksAdminBootstrap (eksAdminBootstrap st account).1 account
        = eksAdminBootstrap st account := by
  have hpol : "EksAdminPolicy" ∈ (eksAdminBootstrap st account).1.policies := by
    unfold eksAdminBootstrap
    rw [attachRolePolicy_policies, createOrGetRole_policies]
    exact createOrGetPolicy_mem st account _
  have hrole : "eks-admin-role" ∈ (eksAdminBootstrap st account).1.roles := by
    unfold eksAdminBootstrap
    rw [attachRolePolicy_roles]
    exact createOrGetRole_mem _ account _
  have hatt : ("eks-admin-role", policyArn account "EksAdminPolicy")
      ∈ (eksAdminBootstrap st account).1.attachments := by
    unfold eksAdminBootstrap
    rw [createOrGetPolicy_arn st account "EksAdminPolicy"]
    exact attachRolePolicy_mem _ _ _
  have harns : (eksAdminBootstrap st account).2
      = (policyArn account "EksAdminPolicy", roleArn account "eks-admin-role") := by
    unfold eksAdminBootstrap
    rw [createOrGetPolicy_arn, createOrGetRole_arn]
  have run2 : eksAdminBootstrap (eksAdminBootstrap st account).1 account
      = ((eksAdminBootstrap st account).1, policyArn account "EksAdminPolicy",
         roleArn account "eks-admin-role") := by
    conv_lhs =>
      rw [eksAdminBootstrap.eq_def,
        createOrGetPolicy_of_mem _ account _ hpol]
    simp only [createOrGetRole_of_mem _ account _ hrole,
      attachRolePolicy_of_mem _ _ _ hatt]
  rw [run2]
  calc ((eksAdminBootstrap st account).1, policyArn account "EksAdminPolicy",
         roleArn account "eks-admin-role")
      = ((eksAdminBootstrap st account).1, (eksAdminBootstrap st account).2) := by
        rw [harns]
    _ = eksAdminBootstrap st account := rfl

theorem lbControllerBootstrap_idem (st : IAMState) (account : String) :
    lbControllerBootstrap (lbControllerBootstrap st account).1 account
        = lbControllerBootstrap st account := by
  have hpol : "AWSLoadBalancerControllerIAMPolicy"
      ∈ (lbControllerBootstrap st account).1.policies := by
    unfold lbControllerBootstrap
    split
    · exact lbPolicyStep_mem st account
    · rw [attachRolePolicy_policies]
      exact lbPolicyStep_mem st account
  have hrole : "AmazonEKSLoadBalancerControllerRole"
      ∈ (lbControllerBootstrap st account).1.roles := by
    unfold lbControllerBootstrap
    split
    · assumption
    · rw [attachRolePolicy_roles]
      simp
  have harns : (lbControllerBootstrap st account).2
      = (policyArn account "AWSLoadBalancerControllerIAMPolicy",
         roleArn account "AmazonEKSLoadBalancerControllerRole") := by
    unfold lbControllerBootstrap
    split <;> rw [lbPolicyStep_arn]
  have run2 : lbControllerBootstrap (lbControllerBootstrap st account).1 account
      = ((lbControllerBootstrap st account).1,
         policyArn account "AWSLoadBalancerControllerIAMPolicy",
         roleArn account "AmazonEKSLoadBalancerControllerRole") := by
    conv_lhs =>
      rw [lbControllerBootstrap.eq_def,
        lbPolicyStep_of_mem _ account hpol]
    simp only [if_pos hrole]
  rw [run2]
  calc ((lbControllerBootstrap st account).1,
         policyArn account "AWSLoadBalancerControllerIAMPolicy",
         roleArn account "AmazonEKSLoadBalancerControllerRole")
      = ((lbControllerBootstrap st account).1, (lbControllerBootstrap st account).2) := by
        rw [harns]
    _ = lbControllerBootstrap st account := rfl

/-- **C3.** Destructive overwrite at restore: recreating a collection drops a
pre-existing, differently-shaped collection of the same name before creating
the backed-up shape.  Afterwards the old collection is gone, the unique
collection carrying the name has exactly the recreated schema (and no indexes
yet), and collections of other names are untouched — nothing is merged. -/
theorem restore_drops_preexisting_collection
    (st : MilvusState) (nm : String) (s : CollectionSchema) (old : Collection)
    (hold : old ∈ st) (hname : old.name = nm) (hdiff : old.schema ≠ s) :
    old ∉ recreateCollection st nm s ∧
    (recreateCollection st nm s).filter (fun c => c.name = nm)
        = [{ name := nm, schema := s, indexes := [] }] ∧
    ∀ c ∈ recreateCollection st nm s, c.name ≠ nm → c ∈ st := by
  have hhas : has_collection st nm = true := by
    unfold has_collection
    rw [List.any_eq_true]
    exact ⟨old, hold, by simp [hname]⟩
  unfold recreateCollection create_collection drop_collection
  rw [if_pos hhas]
  refine ⟨?_, ?_, ?_⟩
  · intro hc
    rcases List.mem_append.mp hc with h | h
    · have h2 := (List.mem_filter.mp h).2
      simp [hname] at h2
    · rw [List.mem_singleton] at h
      exact hdiff (by rw [h])
  · rw [List.filter_append, List.filter_filter]
    have h1 : List.filter (fun a => decide (a.name = nm) && decide (¬ a.name = nm)) st
        = [] := by
      apply List.filter_eq_nil_iff.mpr
      intro c _
      by_cases hcn : c.name = nm <;> simp [hcn]
    rw [h1, List.nil_append]
    simp
  · intro c hc hcn
    rcases List.mem_append.mp hc with h | h
    · exact (List.mem_filter.mp h).1
    · rw [List.mem_singleton] at h
      exact absurd (by rw [h]) hcn

/-- Witness for C3 at a concrete pre-existing state. -/
theorem restore_drops_preexisting_collection_witness :
    oldDocs ∉ recreateCollection [oldDocs] "docs" newDocsSchema ∧
    (recreateCollection [oldDocs] "docs" newDocsSchema).filter (fun c => c.name = "docs")
        = [{ name := "docs", schema := newDocsSchema, indexes := [] }] ∧
    ∀ c ∈ recreateCollection [oldDocs] "docs" newDocsSchema, c.name ≠ "docs" → c ∈ [oldDocs] :=
  restore_drops_preexisting_collection [oldDocs] "docs" newDocsSchema oldDocs
    (by decide) (by decide) (by decide)

/-- **C4.** Abort-on-decline: once the environment checks have passed, any
answer to the initial confirmation prompt that the regex `^[Yy]$` rejects
makes the script exit with code 0 having performed zero mutating external
calls — no bucket creation, no backup or restore job submission, no helm
upgrade (the only calls on the trace are the read-only resource checks). -/
theorem decline_aborts_with_no_mutations
    (e : Env) (t : Tools) (w : World) (ts proceed : String) (cfg : Config)
    (henv : envChecks e t = Except.ok cfg) (hp : matchesYy proceed = false) :
    (runScript e t w ts proceed).exitCode = 0 ∧
    (runScript e t w ts proceed).calls.filter isMutating = [] := by
  unfold runScript
  rw [henv]
  rw [hp]
  refine ⟨rfl, ?_⟩
  show List.filter isMutating checkResourcesCalls = []
  decide

/-- Witness for C4: declining with answer `"no"` exits 0 with no mutations. -/
theorem decline_aborts_with_no_mutations_witness :
    (runScript goodEnv goodTools happyWorld "20250101" "no").exitCode = 0 ∧
    (runScript goodEnv goodTools happyWorld "20250101" "no").calls.filter isMutating = [] :=
  decline_aborts_with_no_mutations goodEnv goodTools happyWorld "20250101" "no"
    _ rfl rfl

/-- **C5.** Gated backup failure: when the backup job does not report success,
the continue/abort prompt decides the outcome — a `y`/`Y` answer lets the run
reach the UPGRADE stage (the `helm upgrade` call appears on the trace) despite
the absent backup, while any other answer terminates the script with exit
code 1 and no helm upgrade is ever invoked. -/
theorem backup_failure_gate
    (e : Env) (t : Tools) (w : World) (ts proceed : String) (cfg : Config)
    (henv : envChecks e t = Except.ok cfg) (hp : matchesYy proceed = true)
    (hfail : w.backupJobSucceeded = false) :
    (matchesYy w.continueAnyway = true →
      Call.helmUpgradeMilvus ∈ (runScript e t w ts proceed).calls) ∧
    (matchesYy w.continueAnyway = false →
      (runScript e t w ts proceed).exitCode = 1 ∧
      Call.helmUpgradeMilvus ∉ (runScript e t w ts proceed).calls) := by
  unfold runScript create_backup_step
  rw [henv]
  simp only [hp, hfail, if_true, if_false, Bool.false_eq_true, ite_false, ite_true]
  constructor
  · intro hc
    simp only [hc, ite_true]
    by_cases hb : w.backupBucketExists <;>
      simp [hb, upgrade_step, checkResourcesCalls, verify_step, restore_data_step]
  · intro hc
    simp only [hc, ite_false]
    by_cases hb : w.backupBucketExists <;>
      simp [hb, checkResourcesCalls]

/-- Witness for C5: both sides of the gate at concrete worlds. -/
theorem backup_failure_gate_witness :
    Call.helmUpgradeMilvus ∈ (runScript goodEnv goodTools failContinueWorld "1" "y").calls ∧
    ((runScript goodEnv goodTools failAbortWorld "1" "y").exitCode = 1 ∧
      Call.helmUpgradeMilvus ∉ (runScript goodEnv goodTools failAbortWorld "1" "y").calls) :=
  ⟨(backup_failure_gate goodEnv goodTools failContinueWorld "1" "y" _ rfl rfl rfl).1 rfl,
   (backup_failure_gate goodEnv goodTools failAbortWorld "1" "y" _ rfl rfl rfl).2 rfl⟩

/-- **C7.** Fatal precondition checks: with any required environment variable
unset or any required CLI tool missing, the upgrade script exits 1 having made
no external call at all; with all requirements present, the checks succeed,
and a missing `AWS_REGION` or `EKS_NAMESPACE` is defaulted (to `eu-central-1`
and `milvus`) instead of aborting. -/
theorem env_checks_gate (e : Env) (t : Tools) :
    ((e.EKS_CLUSTER_NAME = "" ∨ e.MILVUS_BUCKET_NAME = "" ∨
      e.AWS_ACCESS_KEY_ID = "" ∨ e.AWS_SECRET_ACCESS_KEY = "" ∨
      t.aws = false ∨ t.kubectl = false ∨ t.helm = false) →
      ∀ w ts p, runScript e t w ts p =
        { exitCode := 1, calls := [], restoreMessage := none }) ∧
    (e.EKS_CLUSTER_NAME ≠ "" → e.MILVUS_BUCKET_NAME ≠ "" →
     e.AWS_ACCESS_KEY_ID ≠ "" → e.AWS_SECRET_ACCESS_KEY ≠ "" →
     t.aws = true → t.kubectl = true → t.helm = true →
      ∃ cfg, envChecks e t = Except.ok cfg ∧
        (e.AWS_REGION = "" → cfg.region = "eu-central-1") ∧
        (e.EKS_NAMESPACE = "" → cfg.nspace = "milvus")) := by
  constructor
  · intro h w ts p
    have herr : envChecks e t = Except.error 1 := by
      unfold envChecks
      split_ifs <;> simp_all
    unfold runScript
    rw [herr]
  · intro h1 h2 h3 h4 h5 h6 h7
    unfold envChecks
    rw [if_neg h1, if_neg h2, if_neg (by simp [h3, h4]),
      if_neg (by simp [h5]), if_neg (by simp [h6]), if_neg (by simp [h7])]
    exact ⟨_, rfl, fun hr => by simp [hr], fun hn => by simp [hn]⟩

/-- Witness for C7: the missing cluster name aborts with exit 1 and an empty
call trace, while the good environment passes with both defaults applied. -/
theorem env_checks_gate_witness :
    runScript badEnv goodTools happyWorld "1" "y" =
      { exitCode := 1, calls := [], restoreMessage := none } ∧
    ∃ cfg, envChecks goodEnv goodTools = Except.ok cfg ∧
      (goodEnv.AWS_REGION = "" → cfg.region = "eu-central-1") ∧
      (goodEnv.EKS_NAMESPACE = "" → cfg.nspace = "milvus") :=
  ⟨(env_checks_gate badEnv goodTools).1 (Or.inl rfl) happyWorld "1" "y",
   (env_checks_gate goodEnv goodTools).2 (by decide) (by decide) (by decide)
     (by decide) rfl rfl rfl⟩

/-- **C10.** The restore job's catch-all handler only prints: once the
connection succeeded, the Python process exits 0 even when the restore body
raised an exception (so the Kubernetes job reports success and the script
prints "Restoration completed successfully"), and the state the job leaves
behind is exactly what the body reached before the exception.  Moreover, when
`milvus-backup-info.env` is absent, the restore stage is skipped outright: no
call is made and in particular no restore job is submitted. -/
theorem restore_job_reports_success_despite_errors
    (w : World) (path er : String)
    (hconn : w.restoreConnectOk = true)
    (_herr : (restoreBody w.store path w.milvus).2 = some er) :
    (restoreJobRun w.restoreConnectOk w.store path w.milvus).2 = 0 ∧
    (restore_data_step w (some path)).message = "Restoration completed successfully" ∧
    (restore_data_step w (some path)).milvusAfter = (restoreBody w.store path w.milvus).1 ∧
    (restore_data_step w none).calls = [] := by
  refine ⟨?_, ?_, ?_, rfl⟩
  · unfold restoreJobRun
    rw [hconn]
    simp
  · unfold restore_data_step restoreJobRun
    rw [hconn]
    simp
  · unfold restore_data_step restoreJobRun
    rw [hconn]
    simp

/-- Witness for C10 at the concrete erroring store. -/
theorem restore_job_reports_success_despite_errors_witness :
    (restoreJobRun errWorld.restoreConnectOk errWorld.store "backup-1" errWorld.milvus).2 = 0 ∧
    (restore_data_step errWorld (some "backup-1")).message = "Restoration completed successfully" ∧
    (restore_data_step errWorld (some "backup-1")).milvusAfter
        = (restoreBody errWorld.store "backup-1" errWorld.milvus).1 ∧
    (restore_data_step errWorld none).calls = [] :=
  restore_job_reports_success_despite_errors errWorld "backup-1" "KeyError: fields"
    rfl (by decide)

theorem docSim_refl (d : S3Doc) : docSim d d := by
  cases d with
  | schemaDoc a => exact ⟨rfl, rfl⟩
  | indexDoc l => rfl

theorem dlSim_refl (x : Except String S3Doc) : dlSim x x := by
  cases x with
  | ok d => exact docSim_refl d
  | error e => rfl

theorem downloadDoc_cons (e : String × S3Doc) (s : S3Store) (k : String) :
    downloadDoc (e :: s) k
      = if e.1 = k then Except.ok e.2 else downloadDoc s k := by
  unfold downloadDoc
  by_cases h : e.1 = k
  · rw [List.find?_cons_of_pos _ (by simp [h]), if_pos h]
  · rw [List.find?_cons_of_neg _ (by simp [h]), if_neg h]

/-- Two stores with the same keys whose documents differ only in a schema
document with identical restore outcome download similarly at every key. -/
theorem downloadDoc_sim (pre post : S3Store) (k n0 d : String)
    (fsa fsb : List BackupField)
    (hrf : restoreFields fsa = restoreFields fsb) :
    ∀ k1, dlSim (downloadDoc (pre ++ (k, S3Doc.schemaDoc ⟨n0, d, fsa⟩) :: post) k1)
      (downloadDoc (pre ++ (k, S3Doc.schemaDoc ⟨n0, d, fsb⟩) :: post) k1) := by
  induction pre with
  | nil =>
    intro k1
    rw [List.nil_append, List.nil_append, downloadDoc_cons, downloadDoc_cons]
    by_cases hk : k = k1
    · simp only [hk, if_pos]
      exact ⟨rfl, hrf⟩
    · simp only [if_neg hk]
      exact dlSim_refl _
  | cons e pre ih =>
    intro k1
    rw [List.cons_append, List.cons_append, downloadDoc_cons, downloadDoc_cons]
    by_cases he : e.1 = k1
    · simp only [if_pos he]
      exact dlSim_refl _
    · simp only [if_neg he]
      exact ih k1

theorem processIndexes_eq_some (store : S3Store) (paths : List String)
    (nm : String) (st1 : MilvusState) (ik : String)
    (h : paths.find? (fun p => endsWithStr p "/indexes.json") = some ik) :
    processIndexes store paths nm st1
      = match downloadDoc store ik with
        | Except.error e => (st1, some e)
        | Except.ok (S3Doc.schemaDoc _) => (st1, some "TypeError: index document")
        | Except.ok (S3Doc.indexDoc idxs) =>
          (idxs.foldl (fun s i => create_index s nm i) st1, none) := by
  unfold processIndexes
  rw [h]

theorem processCollection_eq_some (store : S3Store) (st : MilvusState)
    (nm : String) (paths : List String) (sk : String)
    (h : paths.find? (fun p => endsWithStr p "/schema.json") = some sk) :
    processCollection store st nm paths
      = match downloadDoc store sk with
        | Except.error e => (st, some e)
        | Except.ok (S3Doc.indexDoc _) => (st, some "KeyError: fields")
        | Except.ok (S3Doc.schemaDoc bs) =>
          processIndexes store paths nm (applySchemaDoc bs nm st) := by
  unfold processCollection
  rw [h]

/-- The index-restoration tail cannot distinguish stores whose downloads are
pairwise similar. -/
theorem processIndexes_congr (s1 s2 : S3Store)
    (hdl : ∀ k, dlSim (downloadDoc s1 k) (downloadDoc s2 k))
    (paths : List String) (nm : String) (st1 : MilvusState) :
    processIndexes s1 paths nm st1 = processIndexes s2 paths nm st1 := by
  cases hidx : paths.find? (fun p => endsWithStr p "/indexes.json") with
  | none =>
    unfold processIndexes
    rw [hidx]
  | some ik =>
    rw [processIndexes_eq_some s1 paths nm st1 ik hidx,
      processIndexes_eq_some s2 paths nm st1 ik hidx]
    have h2 := hdl ik
    cases f1 : downloadDoc s1 ik with
    | error m1 =>
      cases f2 : downloadDoc s2 ik with
      | error m2 =>
        rw [f1, f2] at h2
        simp only [dlSim] at h2
        rw [h2]
      | ok d2 =>
        rw [f1, f2] at h2
        simp only [dlSim] at h2
    | ok d1 =>
      cases f2 : downloadDoc s2 ik with
      | error m2 =>
        rw [f1, f2] at h2
        simp only [dlSim] at h2
      | ok d2 =>
        rw [f1, f2] at h2
        simp only [dlSim] at h2
        cases d1 with
        | schemaDoc a1 =>
          cases d2 with
          | schemaDoc a2 => rfl
          | indexDoc l2 => simp [docSim] at h2
        | indexDoc l1 =>
          cases d2 with
          | schemaDoc a2 => simp [docSim] at h2
          | indexDoc l2 =>
            simp only [docSim, S3Doc.indexDoc.injEq] at h2
            rw [h2]

/-- The per-collection restore step cannot distinguish stores whose downloads
are pairwise similar. -/
theorem processCollection_congr (s1 s2 : S3Store)
    (hdl : ∀ k, dlSim (downloadDoc s1 k) (downloadDoc s2 k))
    (st : MilvusState) (nm : String) (paths : List String) :
    processCollection s1 st nm paths = processCollection s2 st nm paths := by
  cases hfind : paths.find? (fun p => endsWithStr p "/schema.json") with
  | none =>
    unfold processCollection
    rw [hfind]
  | some sk =>
    rw [processCollection_eq_some s1 st nm paths sk hfind,
      processCollection_eq_some s2 st nm paths sk hfind]
    have h := hdl sk
    cases e1 : downloadDoc s1 sk with
    | error m1 =>
      cases e2 : downloadDoc s2 sk with
      | error m2 =>
        rw [e1, e2] at h
        simp only [dlSim] at h
        rw [h]
      | ok d2 =>
        rw [e1, e2] at h
        simp only [dlSim] at h
    | ok d1 =>
      cases e2 : downloadDoc s2 sk with
      | error m2 =>
        rw [e1, e2] at h
        simp only [dlSim] at h
      | ok d2 =>
        rw [e1, e2] at h
        simp only [dlSim] at h
        cases d1 with
        | indexDoc l1 =>
          cases d2 with
          | indexDoc l2 => rfl
          | schemaDoc b => simp [docSim] at h
        | schemaDoc a =>
          cases d2 with
          | indexDoc l2 => simp [docSim] at h
          | schemaDoc b =>
            obtain ⟨hd, hf⟩ := h
            have hab : applySchemaDoc a nm st = applySchemaDoc b nm st := by
              unfold applySchemaDoc
              rw [hd, hf]
            show processIndexes s1 paths nm (applySchemaDoc a nm st)
              = processIndexes s2 paths nm (applySchemaDoc b nm st)
            rw [hab]
            exact processIndexes_congr s1 s2 hdl paths nm _

/-- The restore loop over the grouped collections is likewise insensitive. -/
theorem runCollections_congr (s1 s2 : S3Store)
    (hdl : ∀ k, dlSim (downloadDoc s1 k) (downloadDoc s2 k)) :
    ∀ (groups : List (String × List String)) (st : MilvusState),
      runCollections s1 groups st = runCollections s2 groups st := by
  intro groups
  induction groups with
  | nil => intro st; rfl
  | cons g rest ih =>
    intro st
    obtain ⟨n, ps⟩ := g
    unfold runCollections
    rw [processCollection_congr s1 s2 hdl st n ps]
    cases processCollection s2 st n ps with
    | mk st1 o =>
      cases o with
      | none => exact ih st1
      | some e => rfl

/-- The whole restore body is insensitive to store differences the field
reconstruction cannot observe. -/
theorem restoreBody_congr (s1 s2 : S3Store)
    (hkeys : s1.map Prod.fst = s2.map Prod.fst)
    (hdl : ∀ k, dlSim (downloadDoc s1 k) (downloadDoc s2 k))
    (path : String) (st : MilvusState) :
    restoreBody s1 path st = restoreBody s2 path st := by
  unfold restoreBody listKeys
  rw [hkeys]
  split
  · rfl
  · exact runCollections_congr s1 s2 hdl _ st

/-- **C2.** A schema field whose recorded type string matches no entry of the
restore job's hardcoded lookup table is skipped (its reconstruction yields
nothing), and the restore as a whole proceeds exactly as if the field were
absent: the result of the restore body — remaining fields, remaining
collections, and whether any exception was raised — is unchanged whichever
store position or surrounding fields the unrecognized field occupies.  In
particular an unrecognized type never aborts the restore stage. -/
theorem unknown_dtype_skipped_restore_proceeds
    (f : BackupField) (hf : lookupDtype f.type = none)
    (pre post : S3Store) (k n0 d path : String)
    (fs1 fs2 : List BackupField) (st : MilvusState) :
    restoreField f = none ∧
    restoreBody (pre ++ (k, S3Doc.schemaDoc ⟨n0, d, fs1 ++ f :: fs2⟩) :: post) path st
      = restoreBody (pre ++ (k, S3Doc.schemaDoc ⟨n0, d, fs1 ++ fs2⟩) :: post) path st := by
  have hrfield : restoreField f = none := by
    unfold restoreField
    rw [hf]
  refine ⟨hrfield, ?_⟩
  have hrf : restoreFields (fs1 ++ f :: fs2) = restoreFields (fs1 ++ fs2) := by
    unfold restoreFields
    simp [List.filterMap_append, List.filterMap_cons, hrfield]
  exact restoreBody_congr _ _ (by simp)
    (downloadDoc_sim pre post k n0 d _ _ hrf) path st

/-- Witness for C2: dropping the unrecognized `flag` field from the backed-up
`docs` schema does not change the restore outcome. -/
theorem unknown_dtype_skipped_restore_proceeds_witness :
    restoreField unknownField = none ∧
    restoreBody [("backup-1/docs/schema.json",
        S3Doc.schemaDoc ⟨"docs", "", [idBackupField, unknownField]⟩)] "backup-1" []
      = restoreBody [("backup-1/docs/schema.json",
        S3Doc.schemaDoc ⟨"docs", "", [idBackupField]⟩)] "backup-1" [] :=
  unknown_dtype_skipped_restore_proceeds unknownField (by decide)
    [] [] "backup-1/docs/schema.json" "docs" "" "backup-1" [idBackupField] [] []

/-- **C8.** Idempotency of the access bootstrap: running either IAM bootstrap
sequence a second time on the state produced by the first run creates no
additional IAM objects and resolves exactly the same policy and role ARNs —
the create calls fall through to their paired lookups. -/
theorem access_bootstrap_idempotent (st : IAMState) (account : String) :
    eksAdminBootstrap (eksAdminBootstrap st account).1 account
        = eksAdminBootstrap st account ∧
    lbControllerBootstrap (lbControllerBootstrap st account).1 account
        = lbControllerBootstrap st account :=
  ⟨eksAdminBootstrap_idem st account, lbControllerBootstrap_idem st account⟩

/-! ## Key layout: the backup's object keys and the restore's key parsing -/

theorem splitOnChar_no_sep (c : Char) (l : List Char) (h : c ∉ l) :
    splitOnChar c l = [l] := by
  induction l with
  | nil => rfl
  | cons x xs ih =>
    have hx : ¬ x = c := by
      intro he
      apply h
      rw [he]
      exact List.mem_cons_self c xs
    have hxs : c ∉ xs := fun hm => h (List.mem_cons_of_mem x hm)
    simp only [splitOnChar]
    rw [if_neg hx, ih hxs]

theorem splitOnChar_sep (c : Char) (l1 l2 : List Char) (h : c ∉ l1) :
    splitOnChar c (l1 ++ c :: l2) = l1 :: splitOnChar c l2 := by
  induction l1 with
  | nil =>
    rw [List.nil_append]
    simp [splitOnChar]
  | cons x xs ih =>
    have hx : ¬ x = c := by
      intro he
      apply h
      rw [he]
      exact List.mem_cons_self c xs
    have hxs : c ∉ xs := fun hm => h (List.mem_cons_of_mem x hm)
    rw [List.cons_append]
    simp only [splitOnChar]
    rw [if_neg hx, ih hxs]

theorem slash_not_mem_backupPath (ts : String) (hts : '/' ∉ ts.data) :
    '/' ∉ (backupPath ts).data := by
  unfold backupPath
  rw [String.data_append]
  intro h
  rcases List.mem_append.mp h with h | h
  · exact absurd h (by decide)
  · exact hts h

theorem schemaKey_data (ts nm : String) :
    (schemaKey ts nm).data
      = (backupPath ts).data ++ '/' :: (nm.data ++ '/' :: "schema.json".data) := by
  have h1 : ("/" : String).data = ['/'] := rfl
  have h2 : ("/schema.json" : String).data = '/' :: "schema.json".data := rfl
  simp [schemaKey, String.data_append, h1, h2, List.append_assoc]

theorem indexesKey_data (ts nm : String) :
    (indexesKey ts nm).data
      = (backupPath ts).data ++ '/' :: (nm.data ++ '/' :: "indexes.json".data) := by
  have h1 : ("/" : String).data = ['/'] := rfl
  have h2 : ("/indexes.json" : String).data = '/' :: "indexes.json".data := rfl
  simp [indexesKey, String.data_append, h1, h2, List.append_assoc]

/-- Splitting a backup schema key on `/` recovers exactly the three components
`backup-<timestamp>`, the collection name, and `schema.json`. -/
theorem splitSlash_schemaKey (ts nm : String) (hts : '/' ∉ ts.data)
    (hnm : '/' ∉ nm.data) :
    splitSlash (schemaKey ts nm) = [backupPath ts, nm, "schema.json"] := by
  unfold splitSlash
  rw [schemaKey_data]
  rw [splitOnChar_sep _ _ _ (slash_not_mem_backupPath ts hts)]
  rw [splitOnChar_sep _ _ _ hnm]
  rw [splitOnChar_no_sep _ _ (by decide)]
  rfl

theorem splitSlash_indexesKey (ts nm : String) (hts : '/' ∉ ts.data)
    (hnm : '/' ∉ nm.data) :
    splitSlash (indexesKey ts nm) = [backupPath ts, nm, "indexes.json"] := by
  unfold splitSlash
  rw [indexesKey_data]
  rw [splitOnChar_sep _ _ _ (slash_not_mem_backupPath ts hts)]
  rw [splitOnChar_sep _ _ _ hnm]
  rw [splitOnChar_no_sep _ _ (by decide)]
  rfl

theorem endsWithStr_self_append (x s : String) : endsWithStr (x ++ s) s = true := by
  unfold endsWithStr
  rw [String.data_append, List.isSuffixOf_iff_suffix]
  exact List.suffix_append _ _

theorem schemaKey_endsWith (ts nm : String) :
    endsWithStr (schemaKey ts nm) "/schema.json" = true :=
  endsWithStr_self_append (backupPath ts ++ "/" ++ nm) "/schema.json"

theorem indexesKey_endsWith (ts nm : String) :
    endsWithStr (indexesKey ts nm) "/indexes.json" = true :=
  endsWithStr_self_append (backupPath ts ++ "/" ++ nm) "/indexes.json"

/-- A key formed as `.../schema.json` does not end in `/indexes.json`. -/
theorem schemaKey_not_endsWith_indexes (x : String) :
    endsWithStr (x ++ "/schema.json") "/indexes.json" = false := by
  unfold endsWithStr
  rw [String.data_append]
  by_contra hcon
  rw [Bool.not_eq_false, List.isSuffixOf_iff_suffix] at hcon
  have h2 : ("/schema.json" : String).data <:+ x.data ++ ("/schema.json" : String).data :=
    List.suffix_append _ _
  rcases List.suffix_or_suffix_of_suffix hcon h2 with h | h
  · exact absurd h (by decide)
  · exact absurd h (by decide)

/-- A key formed as `.../indexes.json` does not end in `/schema.json`. -/
theorem indexesKey_not_endsWith_schema (x : String) :
    endsWithStr (x ++ "/indexes.json") "/schema.json" = false := by
  unfold endsWithStr
  rw [String.data_append]
  by_contra hcon
  rw [Bool.not_eq_false, List.isSuffixOf_iff_suffix] at hcon
  have h2 : ("/indexes.json" : String).data <:+ x.data ++ ("/indexes.json" : String).data :=
    List.suffix_append _ _
  rcases List.suffix_or_suffix_of_suffix hcon h2 with h | h
  · exact absurd h (by decide)
  · exact absurd h (by decide)

theorem backupCollection_keys (ts : String) (c : Collection) :
    (backupCollection ts c).map Prod.fst
      = schemaKey ts c.name
          :: (if c.indexes = [] then [] else [indexesKey ts c.name]) := by
  unfold backupCollection
  by_cases h : c.indexes = [] <;> simp [h]

theorem find_schemaFile (ts : String) (c : Collection) :
    ((backupCollection ts c).map Prod.fst).find? (fun p => endsWithStr p "/schema.json")
      = some (schemaKey ts c.name) := by
  rw [backupCollection_keys]
  exact List.find?_cons_of_pos _ (schemaKey_endsWith ts c.name)

theorem find_indexFile (ts : String) (c : Collection) :
    ((backupCollection ts c).map Prod.fst).find? (fun p => endsWithStr p "/indexes.json")
      = if c.indexes = [] then none else some (indexesKey ts c.name) := by
  have h0 : endsWithStr (schemaKey ts c.name) "/indexes.json" = false :=
    schemaKey_not_endsWith_indexes (backupPath ts ++ "/" ++ c.name)
  rw [backupCollection_keys]
  by_cases h : c.indexes = []
  · rw [if_pos h, if_pos h]
    rw [List.find?_cons_of_neg _ (by simp [h0])]
    rfl
  · rw [if_neg h, if_neg h]
    rw [List.find?_cons_of_neg _ (by simp [h0])]
    exact List.find?_cons_of_pos _ (indexesKey_endsWith ts c.name)

theorem startsWithStr_append (p r : String) : startsWithStr (p ++ r) p = true := by
  unfold startsWithStr
  rw [String.data_append, List.isPrefixOf_iff_prefix]
  exact List.prefix_append _ _

theorem schemaKey_startsWith (ts nm : String) :
    startsWithStr (schemaKey ts nm) (backupPath ts ++ "/") = true := by
  have h : schemaKey ts nm = (backupPath ts ++ "/") ++ (nm ++ "/schema.json") := by
    unfold schemaKey
    rw [String.append_assoc]
  rw [h]
  exact startsWithStr_append _ _

theorem indexesKey_startsWith (ts nm : String) :
    startsWithStr (indexesKey ts nm) (backupPath ts ++ "/") = true := by
  have h : indexesKey ts nm = (backupPath ts ++ "/") ++ (nm ++ "/indexes.json") := by
    unfold indexesKey
    rw [String.append_assoc]
  rw [h]
  exact startsWithStr_append _ _

theorem createBackup_keys (ts : String) (cs : List Collection) :
    (createBackup ts cs).map Prod.fst
      = (cs.map fun c => (backupCollection ts c).map Prod.fst).flatten := by
  unfold createBackup
  rw [List.map_flatten, List.map_map]
  rfl

/-- The S3 `Prefix=` filter of the restore job keeps every key the backup
wrote: all of them live under `backup-<timestamp>/`. -/
theorem listKeys_createBackup (ts : String) (cs : List Collection) :
    listKeys (createBackup ts cs) (backupPath ts ++ "/")
      = (createBackup ts cs).map Prod.fst := by
  unfold listKeys
  apply List.filter_eq_self.mpr
  intro k hk
  rw [createBackup_keys, List.mem_flatten] at hk
  obtain ⟨l, hl, hkl⟩ := hk
  rw [List.mem_map] at hl
  obtain ⟨c, _, rfl⟩ := hl
  rw [backupCollection_keys] at hkl
  rcases List.mem_cons.mp hkl with rfl | hkl
  · exact schemaKey_startsWith ts c.name
  · by_cases hind : c.indexes = []
    · rw [if_pos hind] at hkl
      exact absurd hkl (List.not_mem_nil k)
    · rw [if_neg hind, List.mem_singleton] at hkl
      subst hkl
      exact indexesKey_startsWith ts c.name

theorem addPath_fresh (acc : List (String × List String)) (nm k : String)
    (h : nm ∉ acc.map Prod.fst) : addPath acc nm k = acc ++ [(nm, [k])] := by
  induction acc with
  | nil => rfl
  | cons e rest ih =>
    obtain ⟨n, ks⟩ := e
    have hn : ¬ n = nm := by
      intro he
      apply h
      rw [List.map_cons, ← he]
      exact List.mem_cons_self n _
    unfold addPath
    rw [if_neg hn, ih fun hm => h (List.mem_cons_of_mem _ hm)]
    rfl

theorem addPath_last (acc : List (String × List String)) (nm k : String)
    (ks : List String) (h : nm ∉ acc.map Prod.fst) :
    addPath (acc ++ [(nm, ks)]) nm k = acc ++ [(nm, ks ++ [k])] := by
  induction acc with
  | nil => simp [addPath]
  | cons e rest ih =>
    obtain ⟨n, ks1⟩ := e
    have hn : ¬ n = nm := by
      intro he
      apply h
      rw [List.map_cons, ← he]
      exact List.mem_cons_self n _
    rw [List.cons_append]
    unfold addPath
    rw [if_neg hn, ih fun hm => h (List.mem_cons_of_mem _ hm)]
    rfl

/-- One `pathStep` on a backup schema key groups it under the collection name
parsed out of `path_parts[1]`. -/
theorem pathStep_schemaKey (ts nm : String) (hts : '/' ∉ ts.data)
    (hnm : '/' ∉ nm.data) (acc : List (String × List String)) :
    pathStep acc (schemaKey ts nm) = addPath acc nm (schemaKey ts nm) := by
  unfold pathStep
  rw [splitSlash_schemaKey ts nm hts hnm]
  rfl

theorem pathStep_indexesKey (ts nm : String) (hts : '/' ∉ ts.data)
    (hnm : '/' ∉ nm.data) (acc : List (String × List String)) :
    pathStep acc (indexesKey ts nm) = addPath acc nm (indexesKey ts nm) := by
  unfold pathStep
  rw [splitSlash_indexesKey ts nm hts hnm]
  rfl

/-- Folding the restore job's grouping step over everything the backup wrote
appends, per backed-up collection in order, one group labelled with the
collection name and holding exactly that collection's keys. -/
theorem foldl_pathStep_backup (ts : String) (hts : '/' ∉ ts.data) :
    ∀ (cs : List Collection) (acc : List (String × List String)),
      (∀ c ∈ cs, '/' ∉ c.name.data) →
      (cs.map Collection.name).Nodup →
      (∀ c ∈ cs, c.name ∉ acc.map Prod.fst) →
      List.foldl pathStep acc
          ((cs.map fun c => (backupCollection ts c).map Prod.fst).flatten)
        = acc ++ cs.map fun c => (c.name, (backupCollection ts c).map Prod.fst) := by
  intro cs
  induction cs with
  | nil =>
    intro acc _ _ _
    simp
  | cons c rest ih =>
    intro acc hsl hnd hfresh
    have hslc : '/' ∉ c.name.data := hsl c (List.mem_cons_self c rest)
    have hfreshc : c.name ∉ acc.map Prod.fst := hfresh c (List.mem_cons_self c rest)
    rw [List.map_cons, List.flatten_cons, List.foldl_append]
    have hgroup : List.foldl pathStep acc ((backupCollection ts c).map Prod.fst)
        = acc ++ [(c.name, (backupCollection ts c).map Prod.fst)] := by
      rw [backupCollection_keys]
      by_cases hind : c.indexes = []
      · rw [if_pos hind]
        show pathStep acc (schemaKey ts c.name) = _
        rw [pathStep_schemaKey ts c.name hts hslc, addPath_fresh acc _ _ hfreshc]
      · rw [if_neg hind]
        show pathStep (pathStep acc (schemaKey ts c.name)) (indexesKey ts c.name) = _
        rw [pathStep_schemaKey ts c.name hts hslc, addPath_fresh acc _ _ hfreshc]
        rw [pathStep_indexesKey ts c.name hts hslc, addPath_last acc _ _ _ hfreshc]
        rfl
    rw [hgroup]
    have hnd1 := List.nodup_cons.mp (by rw [List.map_cons] at hnd; exact hnd)
    rw [ih (acc ++ [(c.name, (backupCollection ts c).map Prod.fst)])
      (fun c2 hc2 => hsl c2 (List.mem_cons_of_mem c hc2)) hnd1.2 ?_]
    · simp
    · intro c2 hc2
      rw [List.map_append, List.mem_append]
      rintro (hin | hin)
      · exact hfresh c2 (List.mem_cons_of_mem c hc2) hin
      · simp only [List.map_cons, List.map_nil, List.mem_singleton] at hin
        exact hnd1.1 (hin ▸ List.mem_map_of_mem Collection.name hc2)

/-- **C9.** Persisted backup layout, and its consumption by the restore
stage.  For collections with slash-free, pairwise distinct names and a
slash-free timestamp: (1) the backup writes per collection exactly one schema
document and at most one optional index document, under the keys
`backup-<ts>/<name>/schema.json` and `backup-<ts>/<name>/indexes.json`;
(2) the restore stage, listing under `backup-<ts>/` and splitting every key
on `/`, groups the keys back into exactly one group per backed-up collection,
labelled with the collection name; (3) within each group, selecting the entry
ending in `/schema.json` (resp. `/indexes.json`) finds exactly the schema key
(resp. exactly the index key when one was written, and nothing otherwise). -/
theorem backup_layout_consumed_by_restore
    (ts : String) (cs : List Collection)
    (hts : '/' ∉ ts.data)
    (hsl : ∀ c ∈ cs, '/' ∉ c.name.data)
    (hnd : (cs.map Collection.name).Nodup) :
    (∀ c ∈ cs, (backupCollection ts c).map Prod.fst
        = schemaKey ts c.name
            :: (if c.indexes = [] then [] else [indexesKey ts c.name])) ∧
    collectionPaths (listKeys (createBackup ts cs) (backupPath ts ++ "/"))
        = cs.map (fun c => (c.name, (backupCollection ts c).map Prod.fst)) ∧
    (∀ c ∈ cs,
      ((backupCollection ts c).map Prod.fst).find?
          (fun p => endsWithStr p "/schema.json") = some (schemaKey ts c.name) ∧
      ((backupCollection ts c).map Prod.fst).find?
          (fun p => endsWithStr p "/indexes.json")
        = if c.indexes = [] then none else some (indexesKey ts c.name)) := by
  refine ⟨fun c _ => backupCollection_keys ts c, ?_, fun c _ =>
    ⟨find_schemaFile ts c, find_indexFile ts c⟩⟩
  rw [listKeys_createBackup, createBackup_keys]
  unfold collectionPaths
  rw [foldl_pathStep_backup ts hts cs [] hsl hnd (by simp)]
  rw [List.nil_append]

/-- Witness for C9: two concrete collections, one of them with an index. -/
theorem backup_layout_consumed_by_restore_witness :
    (∀ c ∈ [docsCollection, chunksCollection],
      (backupCollection "20250101000000" c).map Prod.fst
        = schemaKey "20250101000000" c.name
            :: (if c.indexes = []
                then [] else [indexesKey "20250101000000" c.name])) ∧
    collectionPaths (listKeys (createBackup "20250101000000" [docsCollection, chunksCollection])
        (backupPath "20250101000000" ++ "/"))
      = [docsCollection, chunksCollection].map
          (fun c => (c.name, (backupCollection "20250101000000" c).map Prod.fst)) ∧
    (∀ c ∈ [docsCollection, chunksCollection],
      ((backupCollection "20250101000000" c).map Prod.fst).find?
          (fun p => endsWithStr p "/schema.json")
        = some (schemaKey "20250101000000" c.name) ∧
      ((backupCollection "20250101000000" c).map Prod.fst).find?
          (fun p => endsWithStr p "/indexes.json")
        = if c.indexes = []
          then none else some (indexesKey "20250101000000" c.name)) :=
  backup_layout_consumed_by_restore "20250101000000" [docsCollection, chunksCollection]
    (by decide) (by decide) (by decide)

end Milvus
